import Mathlib

/-!
Verification development for the apriltag-web repository.

The file shallowly embeds the computational core of the repository:

* `app.js` — the relative pose transform engine (`eulerToRotationMatrix`,
  `rotationMatrixToEuler`, `computeRelativeTransformation`, the matrix helpers
  `transposeMatrix`, `multiplyMatrices`, `multiplyMatrixVector`,
  `subtractVectors`, and the two observed `calculateRelativePose` variants);
* `apriltag.js` — the detection pipeline (`convertToGrayscale`,
  `couldBeTagCenter`, `findTagBoundaries`, `calculateCorners`,
  `findTagCandidates`, `validateAndDecode`, `estimatePose`, `detect`).

Real-valued code (trigonometry, square roots, `Math.atan2`) is modelled over
`ℝ`; JavaScript `Math.atan2 y x` is modelled as the argument of the complex
number `x + y i`, which agrees with the mathematical atan2 on all inputs,
including `atan2 0 0 = 0`.  Pixel-level integer code is modelled over `ℕ`, `ℤ`
and `ℚ` and is executable.
-/

namespace AprilTagWeb

noncomputable section

/-- A 3-vector of real numbers, used for translations and Euler angle
triples `(x, y, z) = (rx, ry, rz)`. -/
@[ext]
structure Vec3 where
  x : ℝ
  y : ℝ
  z : ℝ

/-- A 3×3 real matrix with explicitly named entries, mirroring the
row-of-rows arrays used in `app.js` (`m01` is row 0, column 1). -/
@[ext]
structure Mat3 where
  m00 : ℝ
  m01 : ℝ
  m02 : ℝ
  m10 : ℝ
  m11 : ℝ
  m12 : ℝ
  m20 : ℝ
  m21 : ℝ
  m22 : ℝ

/-- Source `app.js` `subtractVectors(v1, v2)`: componentwise `v1 - v2`. -/
def subtractVectors (v1 v2 : Vec3) : Vec3 :=
  ⟨v1.x - v2.x, v1.y - v2.y, v1.z - v2.z⟩

/-- Source `app.js` `transposeMatrix(matrix)`. -/
def transposeMatrix (matrix : Mat3) : Mat3 :=
  ⟨matrix.m00, matrix.m10, matrix.m20,
   matrix.m01, matrix.m11, matrix.m21,
   matrix.m02, matrix.m12, matrix.m22⟩

/-- Source `app.js` `multiplyMatrices(A, B)`: the usual 3×3 product computed
by the triple loop `result[i][j] += A[i][k] * B[k][j]`. -/
def multiplyMatrices (A B : Mat3) : Mat3 :=
  ⟨A.m00 * B.m00 + A.m01 * B.m10 + A.m02 * B.m20,
   A.m00 * B.m01 + A.m01 * B.m11 + A.m02 * B.m21,
   A.m00 * B.m02 + A.m01 * B.m12 + A.m02 * B.m22,
   A.m10 * B.m00 + A.m11 * B.m10 + A.m12 * B.m20,
   A.m10 * B.m01 + A.m11 * B.m11 + A.m12 * B.m21,
   A.m10 * B.m02 + A.m11 * B.m12 + A.m12 * B.m22,
   A.m20 * B.m00 + A.m21 * B.m10 + A.m22 * B.m20,
   A.m20 * B.m01 + A.m21 * B.m11 + A.m22 * B.m21,
   A.m20 * B.m02 + A.m21 * B.m12 + A.m22 * B.m22⟩

/-- Source `app.js` `multiplyMatrixVector(matrix, vector)`. -/
def multiplyMatrixVector (matrix : Mat3) (vector : Vec3) : Vec3 :=
  ⟨matrix.m00 * vector.x + matrix.m01 * vector.y + matrix.m02 * vector.z,
   matrix.m10 * vector.x + matrix.m11 * vector.y + matrix.m12 * vector.z,
   matrix.m20 * vector.x + matrix.m21 * vector.y + matrix.m22 * vector.z⟩

/-- JavaScript `Math.atan2(y, x)`, modelled as the principal argument of the
complex number `x + y i` (range `(-π, π]`, `atan2 0 0 = 0`). -/
def atan2 (y x : ℝ) : ℝ := Complex.arg ⟨x, y⟩

/-- Source `app.js` `eulerToRotationMatrix(euler)` (lines 477–491): builds
the rotation matrix from the Euler angle triple via the literal entry
formulas of the source. -/
def eulerToRotationMatrix (euler : Vec3) : Mat3 :=
  let cos_x := Real.cos euler.x
  let sin_x := Real.sin euler.x
  let cos_y := Real.cos euler.y
  let sin_y := Real.sin euler.y
  let cos_z := Real.cos euler.z
  let sin_z := Real.sin euler.z
  ⟨cos_y * cos_z, -cos_y * sin_z, sin_y,
   cos_x * sin_z + sin_x * sin_y * cos_z, cos_x * cos_z - sin_x * sin_y * sin_z, -sin_x * cos_y,
   sin_x * sin_z - cos_x * sin_y * cos_z, sin_x * cos_z + cos_x * sin_y * sin_z, cos_x * cos_y⟩

/-- Source `app.js` `rotationMatrixToEuler(R)` (lines 493–511).  The source
tests `singular = sy < 1e-6` and takes the non-singular branch on
`!singular`; here the two branches are written in the equivalent
if-singular-then-else order. -/
def rotationMatrixToEuler (R : Mat3) : Vec3 :=
  let sy := Real.sqrt (R.m00 * R.m00 + R.m10 * R.m10)
  if sy < 1e-6 then
    ⟨atan2 (-R.m12) R.m11, atan2 (-R.m20) sy, 0⟩
  else
    ⟨atan2 R.m21 R.m22, atan2 (-R.m20) sy, atan2 R.m10 R.m00⟩

/-- A pose as held in `detection.pose`: translation vector and Euler angle
rotation triple. -/
structure Pose where
  translation : Vec3
  rotation : Vec3

/-- Result record of `computeRelativeTransformation`. -/
structure RelativeTransformation where
  translation : Vec3
  rotationMatrix : Mat3

/-- Source `app.js` `computeRelativeTransformation(pose1, pose2)`
(lines 454–475). -/
def computeRelativeTransformation (pose1 pose2 : Pose) : RelativeTransformation :=
  let R1 := eulerToRotationMatrix pose1.rotation
  let R2 := eulerToRotationMatrix pose2.rotation
  let t1 := pose1.translation
  let t2 := pose2.translation
  let R1_transpose := transposeMatrix R1
  let R_relative := multiplyMatrices R2 R1_transpose
  let t_diff := subtractVectors t2 t1
  let t_relative := multiplyMatrixVector R1_transpose t_diff
  ⟨t_relative, R_relative⟩

/-- The distance computed by the matrix-based `calculateRelativePose`
variant of `app.js` (lines 435–439): the Euclidean norm of the relative
translation returned by `computeRelativeTransformation`. -/
def calculateRelativePoseDistance (pose1 pose2 : Pose) : ℝ :=
  let relativePose := computeRelativeTransformation pose1 pose2
  let translation := relativePose.translation
  Real.sqrt (translation.x ^ 2 + translation.y ^ 2 + translation.z ^ 2)

/-- The Euler angles displayed by the matrix-based `calculateRelativePose`
variant of `app.js` (lines 441–442): the relative rotation matrix converted
back to Euler angles. -/
def calculateRelativePoseEuler (pose1 pose2 : Pose) : Vec3 :=
  rotationMatrixToEuler (computeRelativeTransformation pose1 pose2).rotationMatrix

/-- The relative rotation of the second observed `calculateRelativePose`
variant of `app.js` (lines 859–861): plain per-component subtraction
`rot2 - rot1` with no matrix algebra. -/
def naiveRelativeRotation (pose1 pose2 : Pose) : Vec3 :=
  subtractVectors pose2.rotation pose1.rotation

/-- The 3×3 identity matrix, the comparison object of the spec's identity
property. -/
def idMat3 : Mat3 := ⟨1, 0, 0, 0, 1, 0, 0, 0, 1⟩

/-- The Euclidean norm of a 3-vector, the comparison object of the spec's
distance property. -/
def euclideanNorm (v : Vec3) : ℝ := Real.sqrt (v.x ^ 2 + v.y ^ 2 + v.z ^ 2)

/-- Row 0 of an Euler rotation matrix is a unit vector. -/
lemma euler_row00 (e : Vec3) :
    (eulerToRotationMatrix e).m00 * (eulerToRotationMatrix e).m00
      + (eulerToRotationMatrix e).m01 * (eulerToRotationMatrix e).m01
      + (eulerToRotationMatrix e).m02 * (eulerToRotationMatrix e).m02 = 1 := by
  simp only [eulerToRotationMatrix]
  linear_combination (Real.cos e.y) ^ 2 * Real.sin_sq_add_cos_sq e.z
    + Real.sin_sq_add_cos_sq e.y

/-- Rows 0 and 1 of an Euler rotation matrix are orthogonal. -/
lemma euler_row01 (e : Vec3) :
    (eulerToRotationMatrix e).m00 * (eulerToRotationMatrix e).m10
      + (eulerToRotationMatrix e).m01 * (eulerToRotationMatrix e).m11
      + (eulerToRotationMatrix e).m02 * (eulerToRotationMatrix e).m12 = 0 := by
  simp only [eulerToRotationMatrix]
  linear_combination (Real.sin e.x * Real.sin e.y * Real.cos e.y)
    * Real.sin_sq_add_cos_sq e.z

/-- Rows 0 and 2 of an Euler rotation matrix are orthogonal. -/
lemma euler_row02 (e : Vec3) :
    (eulerToRotationMatrix e).m00 * (eulerToRotationMatrix e).m20
      + (eulerToRotationMatrix e).m01 * (eulerToRotationMatrix e).m21
      + (eulerToRotationMatrix e).m02 * (eulerToRotationMatrix e).m22 = 0 := by
  simp only [eulerToRotationMatrix]
  linear_combination (-(Real.cos e.x * Real.sin e.y * Real.cos e.y))
    * Real.sin_sq_add_cos_sq e.z

/-- Row 1 of an Euler rotation matrix is a unit vector. -/
lemma euler_row11 (e : Vec3) :
    (eulerToRotationMatrix e).m10 * (eulerToRotationMatrix e).m10
      + (eulerToRotationMatrix e).m11 * (eulerToRotationMatrix e).m11
      + (eulerToRotationMatrix e).m12 * (eulerToRotationMatrix e).m12 = 1 := by
  simp only [eulerToRotationMatrix]
  linear_combination
    ((Real.cos e.x) ^ 2 + (Real.sin e.x) ^ 2 * (Real.sin e.y) ^ 2)
        * Real.sin_sq_add_cos_sq e.z
      + (Real.sin e.x) ^ 2 * Real.sin_sq_add_cos_sq e.y
      + Real.sin_sq_add_cos_sq e.x

/-- Rows 1 and 2 of an Euler rotation matrix are orthogonal. -/
lemma euler_row12 (e : Vec3) :
    (eulerToRotationMatrix e).m10 * (eulerToRotationMatrix e).m20
      + (eulerToRotationMatrix e).m11 * (eulerToRotationMatrix e).m21
      + (eulerToRotationMatrix e).m12 * (eulerToRotationMatrix e).m22 = 0 := by
  simp only [eulerToRotationMatrix]
  linear_combination
    (Real.cos e.x * Real.sin e.x * (1 - (Real.sin e.y) ^ 2))
        * Real.sin_sq_add_cos_sq e.z
      - (Real.cos e.x * Real.sin e.x) * Real.sin_sq_add_cos_sq e.y

/-- Row 2 of an Euler rotation matrix is a unit vector. -/
lemma euler_row22 (e : Vec3) :
    (eulerToRotationMatrix e).m20 * (eulerToRotationMatrix e).m20
      + (eulerToRotationMatrix e).m21 * (eulerToRotationMatrix e).m21
      + (eulerToRotationMatrix e).m22 * (eulerToRotationMatrix e).m22 = 1 := by
  simp only [eulerToRotationMatrix]
  linear_combination
    ((Real.sin e.x) ^ 2 + (Real.cos e.x) ^ 2 * (Real.sin e.y) ^ 2)
        * Real.sin_sq_add_cos_sq e.z
      + (Real.cos e.x) ^ 2 * Real.sin_sq_add_cos_sq e.y
      + Real.sin_sq_add_cos_sq e.x

/-- Every matrix produced by `eulerToRotationMatrix` is orthogonal:
multiplying it with its transpose gives the identity. -/
lemma euler_orthogonal (e : Vec3) :
    multiplyMatrices (eulerToRotationMatrix e)
      (transposeMatrix (eulerToRotationMatrix e)) = idMat3 := by
  ext <;> simp only [multiplyMatrices, transposeMatrix, idMat3]
  · linear_combination euler_row00 e
  · linear_combination euler_row01 e
  · linear_combination euler_row02 e
  · linear_combination euler_row01 e
  · linear_combination euler_row11 e
  · linear_combination euler_row12 e
  · linear_combination euler_row02 e
  · linear_combination euler_row12 e
  · linear_combination euler_row22 e

/-- Multiplying a vector by the transpose of an Euler rotation matrix
preserves the sum of squared components. -/
lemma normSq_transpose_mulVec (e v : Vec3) :
    (multiplyMatrixVector (transposeMatrix (eulerToRotationMatrix e)) v).x ^ 2
      + (multiplyMatrixVector (transposeMatrix (eulerToRotationMatrix e)) v).y ^ 2
      + (multiplyMatrixVector (transposeMatrix (eulerToRotationMatrix e)) v).z ^ 2
      = v.x ^ 2 + v.y ^ 2 + v.z ^ 2 := by
  simp only [multiplyMatrixVector, transposeMatrix]
  linear_combination v.x ^ 2 * euler_row00 e + v.y ^ 2 * euler_row11 e
    + v.z ^ 2 * euler_row22 e + 2 * v.x * v.y * euler_row01 e
    + 2 * v.x * v.z * euler_row02 e + 2 * v.y * v.z * euler_row12 e

/-- The relative rotation matrix of a pose against itself is the identity. -/
lemma computeRelative_self_rotationMatrix (p : Pose) :
    (computeRelativeTransformation p p).rotationMatrix = idMat3 := by
  simpa only [computeRelativeTransformation] using euler_orthogonal p.rotation

/-- C3: for every pose `p` (any translation vector and any Euler-angle
rotation), `computeRelativeTransformation p p` returns translation
`(0, 0, 0)` and a rotation matrix equal to the 3×3 identity matrix
(here proved exactly, hence in particular within any floating-point
tolerance). -/
theorem computeRelativeTransformation_self (p : Pose) :
    (computeRelativeTransformation p p).translation = ⟨0, 0, 0⟩ ∧
      (computeRelativeTransformation p p).rotationMatrix = idMat3 := by
  constructor
  · ext <;>
      simp only [computeRelativeTransformation, subtractVectors,
        multiplyMatrixVector, transposeMatrix] <;>
      ring
  · exact computeRelative_self_rotationMatrix p

/-- C4: every matrix produced by `eulerToRotationMatrix` is orthogonal, and
consequently for every pair of poses the distance reported by the
matrix-based `calculateRelativePose` — computed by the code as the norm of
the frame-changed relative translation `R1ᵀ (t2 - t1)` — equals the
Euclidean norm of the world-frame translation difference `t2 - t1`. -/
theorem calculateRelativePoseDistance_eq_euclideanNorm :
    (∀ e : Vec3,
        multiplyMatrices (eulerToRotationMatrix e)
          (transposeMatrix (eulerToRotationMatrix e)) = idMat3) ∧
      ∀ pose1 pose2 : Pose,
        calculateRelativePoseDistance pose1 pose2
          = euclideanNorm (subtractVectors pose2.translation pose1.translation) := by
  refine ⟨euler_orthogonal, fun pose1 pose2 => ?_⟩
  simp only [calculateRelativePoseDistance, computeRelativeTransformation, euclideanNorm]
  exact congrArg Real.sqrt
    (normSq_transpose_mulVec pose1.rotation
      (subtractVectors pose2.translation pose1.translation))

/-- The model of `Math.atan2 0 x` vanishes for nonnegative `x`. -/
lemma atan2_zero_of_nonneg {x : ℝ} (hx : 0 ≤ x) : atan2 0 x = 0 := by
  show Complex.arg ⟨x, 0⟩ = 0
  rw [show (⟨x, 0⟩ : ℂ) = (x : ℂ) from rfl]
  exact Complex.arg_ofReal_of_nonneg hx

/-- The model of `Math.atan2 1 0` is `π / 2`. -/
lemma atan2_one_zero : atan2 1 0 = Real.pi / 2 := by
  show Complex.arg ⟨0, 1⟩ = Real.pi / 2
  rw [show (⟨(0 : ℝ), (1 : ℝ)⟩ : ℂ) = Complex.I from rfl]
  exact Complex.arg_I

/-- Sine of the model of `Math.atan2`. -/
lemma sin_atan2 (y x : ℝ) :
    Real.sin (atan2 y x) = y / Real.sqrt (x * x + y * y) := by
  show Real.sin (Complex.arg ⟨x, y⟩) = _
  rw [Complex.sin_arg]
  simp [Complex.abs_apply, Complex.normSq_mk]

/-- Cosine and sine of `arctan (4 / 3)` are `3 / 5` and `4 / 5`. -/
lemma cos_sin_arctan43 :
    Real.cos (Real.arctan (4 / 3)) = 3 / 5 ∧
      Real.sin (Real.arctan (4 / 3)) = 4 / 5 := by
  have h : Real.sqrt (1 + (4 / 3 : ℝ) ^ 2) = 5 / 3 := by
    rw [show (1 : ℝ) + (4 / 3) ^ 2 = (5 / 3) ^ 2 by norm_num,
      Real.sqrt_sq (by norm_num : (0 : ℝ) ≤ 5 / 3)]
  constructor
  · rw [Real.cos_arctan, h]; norm_num
  · rw [Real.sin_arctan, h]; norm_num

/-- The rotation matrix built from the Euler angles
`(arctan (4/3), 0, arctan (4/3))`, computed entrywise. -/
lemma euler_matrix_at_counterexample :
    eulerToRotationMatrix ⟨Real.arctan (4 / 3), 0, Real.arctan (4 / 3)⟩
      = ⟨3 / 5, -(4 / 5), 0, 12 / 25, 9 / 25, -(4 / 5), 16 / 25, 12 / 25, 3 / 5⟩ := by
  obtain ⟨hc, hs⟩ := cos_sin_arctan43
  simp only [eulerToRotationMatrix, hc, hs, Real.cos_zero, Real.sin_zero]
  norm_num

/-- C1 (code bug): at the non-singular input
`(rx, ry, rz) = (arctan (4/3), 0, arctan (4/3))` — whose `ry = 0` is neither
`π/2` nor `-π/2` — the matrix → Euler → matrix round trip does NOT reproduce
`R = eulerToRotationMatrix (rx, ry, rz)`: entry `(0, 2)` of the round-tripped
matrix is `-(16/25)` while the original entry is `0`, a discrepancy far above
the claimed `1e-9` tolerance.  The two conversion functions invert different
rotation-order conventions, so the spec's round-trip property fails on the
code. -/
theorem euler_roundtrip_fails_at_nonsingular_input :
    ((0 : ℝ) ≠ Real.pi / 2 ∧ (0 : ℝ) ≠ -(Real.pi / 2)) ∧
      (eulerToRotationMatrix ⟨Real.arctan (4 / 3), 0, Real.arctan (4 / 3)⟩).m02 = 0 ∧
      (eulerToRotationMatrix (rotationMatrixToEuler
          (eulerToRotationMatrix
            ⟨Real.arctan (4 / 3), 0, Real.arctan (4 / 3)⟩))).m02 = -(16 / 25) ∧
      ¬ |(eulerToRotationMatrix (rotationMatrixToEuler
            (eulerToRotationMatrix
              ⟨Real.arctan (4 / 3), 0, Real.arctan (4 / 3)⟩))).m02
          - (eulerToRotationMatrix
              ⟨Real.arctan (4 / 3), 0, Real.arctan (4 / 3)⟩).m02| < 1e-9 := by
  have hπ : (0 : ℝ) < Real.pi / 2 := by positivity
  have hR := euler_matrix_at_counterexample
  have hsy : Real.sqrt ((3 / 5 : ℝ) * (3 / 5) + 12 / 25 * (12 / 25))
      = Real.sqrt (369 / 625) := by norm_num
  have hsy_big : ¬ Real.sqrt ((3 / 5 : ℝ) * (3 / 5) + 12 / 25 * (12 / 25)) < 1e-6 := by
    rw [hsy]
    have : (1e-6 : ℝ) ≤ Real.sqrt (369 / 625) := by
      rw [show (1e-6 : ℝ) = Real.sqrt ((1e-6) ^ 2) from
        (Real.sqrt_sq (by norm_num)).symm]
      exact Real.sqrt_le_sqrt (by norm_num)
    linarith
  have hEuler : rotationMatrixToEuler
      ((⟨3 / 5, -(4 / 5), 0, 12 / 25, 9 / 25, -(4 / 5), 16 / 25, 12 / 25, 3 / 5⟩ : Mat3))
      = ⟨atan2 (12 / 25) (3 / 5),
          atan2 (-(16 / 25)) (Real.sqrt (369 / 625)),
          atan2 (12 / 25) (3 / 5)⟩ := by
    rw [rotationMatrixToEuler]
    simp only [if_neg hsy_big]
    rw [hsy]
  have hsin : Real.sin (atan2 (-(16 / 25)) (Real.sqrt (369 / 625))) = -(16 / 25) := by
    rw [sin_atan2,
      Real.mul_self_sqrt (by norm_num : (0 : ℝ) ≤ 369 / 625),
      show (369 / 625 : ℝ) + -(16 / 25) * -(16 / 25) = 1 by norm_num,
      Real.sqrt_one, div_one]
  refine ⟨⟨by linarith, by linarith⟩, ?_, ?_, ?_⟩
  · rw [hR]
  · rw [hR, hEuler]
    show Real.sin (atan2 (-(16 / 25)) (Real.sqrt (369 / 625))) = -(16 / 25)
    exact hsin
  · rw [hR, hEuler]
    show ¬ |Real.sin (atan2 (-(16 / 25)) (Real.sqrt (369 / 625))) - (0 : ℝ)| < 1e-9
    rw [hsin]
    rw [show (-(16 / 25 : ℝ)) - 0 = -(16 / 25) by ring, abs_neg,
      abs_of_nonneg (by norm_num : (0 : ℝ) ≤ 16 / 25)]
    norm_num

/-- C2 (code bug): for the matrix built from `(rx, ry, rz) = (0, π/2, π/2)`
— an instance of the claim's family `ry = π/2` — the code computes
`sy = sqrt (R00² + R10²) = 1`, does NOT satisfy `sy < 1e-6`, takes the
non-singular branch, and returns third Euler component `π/2 ≠ 0`, violating
both parts of the claim. -/
theorem gimbal_lock_branch_not_taken :
    Real.sqrt
        ((eulerToRotationMatrix ⟨0, Real.pi / 2, Real.pi / 2⟩).m00
            * (eulerToRotationMatrix ⟨0, Real.pi / 2, Real.pi / 2⟩).m00
          + (eulerToRotationMatrix ⟨0, Real.pi / 2, Real.pi / 2⟩).m10
            * (eulerToRotationMatrix ⟨0, Real.pi / 2, Real.pi / 2⟩).m10) = 1 ∧
      ¬ Real.sqrt
          ((eulerToRotationMatrix ⟨0, Real.pi / 2, Real.pi / 2⟩).m00
              * (eulerToRotationMatrix ⟨0, Real.pi / 2, Real.pi / 2⟩).m00
            + (eulerToRotationMatrix ⟨0, Real.pi / 2, Real.pi / 2⟩).m10
              * (eulerToRotationMatrix ⟨0, Real.pi / 2, Real.pi / 2⟩).m10) < 1e-6 ∧
      (rotationMatrixToEuler
          (eulerToRotationMatrix ⟨0, Real.pi / 2, Real.pi / 2⟩)).z = Real.pi / 2 ∧
      Real.pi / 2 ≠ 0 := by
  have hR : eulerToRotationMatrix ⟨0, Real.pi / 2, Real.pi / 2⟩
      = ⟨0, 0, 1, 1, 0, 0, 0, 1, 0⟩ := by
    simp only [eulerToRotationMatrix, Real.cos_zero, Real.sin_zero,
      Real.cos_pi_div_two, Real.sin_pi_div_two]
    norm_num
  have hsy : Real.sqrt
      ((eulerToRotationMatrix ⟨0, Real.pi / 2, Real.pi / 2⟩).m00
          * (eulerToRotationMatrix ⟨0, Real.pi / 2, Real.pi / 2⟩).m00
        + (eulerToRotationMatrix ⟨0, Real.pi / 2, Real.pi / 2⟩).m10
          * (eulerToRotationMatrix ⟨0, Real.pi / 2, Real.pi / 2⟩).m10) = 1 := by
    rw [hR]
    show Real.sqrt ((0 : ℝ) * 0 + 1 * 1) = 1
    rw [show ((0 : ℝ) * 0 + 1 * 1) = 1 by norm_num, Real.sqrt_one]
  have hπ2 : Real.pi / 2 ≠ 0 := by positivity
  refine ⟨hsy, by rw [hsy]; norm_num, ?_, hπ2⟩
  rw [hR, rotationMatrixToEuler]
  have hbranch : ¬ Real.sqrt
      (((⟨0, 0, 1, 1, 0, 0, 0, 1, 0⟩ : Mat3)).m00 * ((⟨0, 0, 1, 1, 0, 0, 0, 1, 0⟩ : Mat3)).m00
        + ((⟨0, 0, 1, 1, 0, 0, 0, 1, 0⟩ : Mat3)).m10
          * ((⟨0, 0, 1, 1, 0, 0, 0, 1, 0⟩ : Mat3)).m10) < 1e-6 := by
    show ¬ Real.sqrt ((0 : ℝ) * 0 + 1 * 1) < 1e-6
    rw [show ((0 : ℝ) * 0 + 1 * 1) = 1 by norm_num, Real.sqrt_one]
    norm_num
  simp only [if_neg hbranch]
  show atan2 (1 : ℝ) 0 = Real.pi / 2
  exact atan2_one_zero

/-- Converting the identity matrix back to Euler angles yields `(0, 0, 0)`. -/
lemma rotationMatrixToEuler_idMat3 : rotationMatrixToEuler idMat3 = ⟨0, 0, 0⟩ := by
  rw [rotationMatrixToEuler]
  have hbranch : ¬ Real.sqrt (idMat3.m00 * idMat3.m00 + idMat3.m10 * idMat3.m10) < 1e-6 := by
    show ¬ Real.sqrt ((1 : ℝ) * 1 + 0 * 0) < 1e-6
    rw [show ((1 : ℝ) * 1 + 0 * 0) = 1 by norm_num, Real.sqrt_one]
    norm_num
  simp only [if_neg hbranch]
  have h1 : Real.sqrt (idMat3.m00 * idMat3.m00 + idMat3.m10 * idMat3.m10) = 1 := by
    show Real.sqrt ((1 : ℝ) * 1 + 0 * 0) = 1
    rw [show ((1 : ℝ) * 1 + 0 * 0) = 1 by norm_num, Real.sqrt_one]
  show (⟨atan2 idMat3.m21 idMat3.m22, atan2 (-idMat3.m20) _, atan2 idMat3.m10 idMat3.m00⟩ : Vec3)
      = ⟨0, 0, 0⟩
  rw [h1]
  show (⟨atan2 (0 : ℝ) 1, atan2 (-(0 : ℝ)) 1, atan2 (0 : ℝ) 1⟩ : Vec3) = ⟨0, 0, 0⟩
  rw [neg_zero, atan2_zero_of_nonneg (by norm_num : (0 : ℝ) ≤ 1)]

/-- C5 counterexample: the claim quantifies over EVERY pair of poses with a
nonzero orientation, but for two equal poses with rotation `(π/2, 0, 0)` the
per-component subtraction policy and the matrix-based policy agree — both
return relative rotation `(0, 0, 0)` — so the claimed universal disagreement
is false. -/
theorem naive_eq_matrix_at_equal_nonzero_rotation :
    (Pose.mk ⟨0, 0, 0⟩ ⟨Real.pi / 2, 0, 0⟩).rotation ≠ ⟨0, 0, 0⟩ ∧
      naiveRelativeRotation (Pose.mk ⟨0, 0, 0⟩ ⟨Real.pi / 2, 0, 0⟩)
          (Pose.mk ⟨0, 0, 0⟩ ⟨Real.pi / 2, 0, 0⟩)
        = calculateRelativePoseEuler (Pose.mk ⟨0, 0, 0⟩ ⟨Real.pi / 2, 0, 0⟩)
            (Pose.mk ⟨0, 0, 0⟩ ⟨Real.pi / 2, 0, 0⟩) := by
  constructor
  · intro h
    have hx := congrArg Vec3.x h
    have hπ : (0 : ℝ) < Real.pi / 2 := by positivity
    simp only at hx
    linarith [hx]
  · have hnaive : naiveRelativeRotation (Pose.mk ⟨0, 0, 0⟩ ⟨Real.pi / 2, 0, 0⟩)
        (Pose.mk ⟨0, 0, 0⟩ ⟨Real.pi / 2, 0, 0⟩) = ⟨0, 0, 0⟩ := by
      ext <;> simp [naiveRelativeRotation, subtractVectors]
    have hmat : calculateRelativePoseEuler (Pose.mk ⟨0, 0, 0⟩ ⟨Real.pi / 2, 0, 0⟩)
        (Pose.mk ⟨0, 0, 0⟩ ⟨Real.pi / 2, 0, 0⟩) = ⟨0, 0, 0⟩ := by
      rw [calculateRelativePoseEuler, computeRelative_self_rotationMatrix]
      exact rotationMatrixToEuler_idMat3
    rw [hnaive, hmat]

/-- C5 (amended): the two observed relative-pose policies are genuinely
inconsistent — there exists a pair of poses with nonzero orientation on
which per-component Euler subtraction and the matrix-based policy return
different relative rotations.  (Witness: rotations `(0, 0, π/2)` and
`(π/2, 0, 0)`; subtraction gives `(π/2, 0, -π/2)` while the matrix policy
gives `(π/2, π/2, 0)`.) -/
theorem naive_and_matrix_policies_differ :
    ∃ pose1 pose2 : Pose,
      (pose1.rotation ≠ ⟨0, 0, 0⟩ ∨ pose2.rotation ≠ ⟨0, 0, 0⟩) ∧
        naiveRelativeRotation pose1 pose2 ≠ calculateRelativePoseEuler pose1 pose2 := by
  refine ⟨Pose.mk ⟨0, 0, 0⟩ ⟨0, 0, Real.pi / 2⟩,
    Pose.mk ⟨0, 0, 0⟩ ⟨Real.pi / 2, 0, 0⟩, Or.inl ?_, ?_⟩
  · intro h
    have hz := congrArg Vec3.z h
    have hπ : (0 : ℝ) < Real.pi / 2 := by positivity
    simp only at hz
    linarith [hz]
  · have hR1 : eulerToRotationMatrix ⟨0, 0, Real.pi / 2⟩
        = ⟨0, -1, 0, 1, 0, 0, 0, 0, 1⟩ := by
      simp only [eulerToRotationMatrix, Real.cos_zero, Real.sin_zero,
        Real.cos_pi_div_two, Real.sin_pi_div_two]
      norm_num
    have hR2 : eulerToRotationMatrix ⟨Real.pi / 2, 0, 0⟩
        = ⟨1, 0, 0, 0, 0, -1, 0, 1, 0⟩ := by
      simp only [eulerToRotationMatrix, Real.cos_zero, Real.sin_zero,
        Real.cos_pi_div_two, Real.sin_pi_div_two]
      norm_num
    have hrel : (computeRelativeTransformation (Pose.mk ⟨0, 0, 0⟩ ⟨0, 0, Real.pi / 2⟩)
        (Pose.mk ⟨0, 0, 0⟩ ⟨Real.pi / 2, 0, 0⟩)).rotationMatrix
        = ⟨0, 1, 0, 0, 0, -1, -1, 0, 0⟩ := by
      simp only [computeRelativeTransformation]
      rw [hR1, hR2]
      simp only [multiplyMatrices, transposeMatrix]
      norm_num
    have hmat : calculateRelativePoseEuler (Pose.mk ⟨0, 0, 0⟩ ⟨0, 0, Real.pi / 2⟩)
        (Pose.mk ⟨0, 0, 0⟩ ⟨Real.pi / 2, 0, 0⟩)
        = ⟨Real.pi / 2, Real.pi / 2, 0⟩ := by
      rw [calculateRelativePoseEuler, hrel, rotationMatrixToEuler]
      have hbranch : Real.sqrt
          (((⟨0, 1, 0, 0, 0, -1, -1, 0, 0⟩ : Mat3)).m00
              * ((⟨0, 1, 0, 0, 0, -1, -1, 0, 0⟩ : Mat3)).m00
            + ((⟨0, 1, 0, 0, 0, -1, -1, 0, 0⟩ : Mat3)).m10
              * ((⟨0, 1, 0, 0, 0, -1, -1, 0, 0⟩ : Mat3)).m10) < 1e-6 := by
        show Real.sqrt ((0 : ℝ) * 0 + 0 * 0) < 1e-6
        rw [show ((0 : ℝ) * 0 + 0 * 0) = 0 by norm_num, Real.sqrt_zero]
        norm_num
      simp only [if_pos hbranch]
      have hsy0 : Real.sqrt
          (((⟨0, 1, 0, 0, 0, -1, -1, 0, 0⟩ : Mat3)).m00
              * ((⟨0, 1, 0, 0, 0, -1, -1, 0, 0⟩ : Mat3)).m00
            + ((⟨0, 1, 0, 0, 0, -1, -1, 0, 0⟩ : Mat3)).m10
              * ((⟨0, 1, 0, 0, 0, -1, -1, 0, 0⟩ : Mat3)).m10) = 0 := by
        show Real.sqrt ((0 : ℝ) * 0 + 0 * 0) = 0
        rw [show ((0 : ℝ) * 0 + 0 * 0) = 0 by norm_num, Real.sqrt_zero]
      rw [hsy0]
      show (⟨atan2 (-(-1 : ℝ)) 0, atan2 (-(-1 : ℝ)) 0, 0⟩ : Vec3)
          = ⟨Real.pi / 2, Real.pi / 2, 0⟩
      rw [show (-(-1 : ℝ)) = 1 by ring, atan2_one_zero]
  -- the second components differ: 0 for subtraction, π/2 for the matrix policy
    intro h
    rw [hmat] at h
    have hy := congrArg Vec3.y h
    simp only [naiveRelativeRotation, subtractVectors] at hy
    have hπ : (0 : ℝ) < Real.pi / 2 := by positivity
    linarith [hy]

end

/-! The pixel-level detection pipeline of `apriltag.js`.  Pixel buffers are
modelled as functions from flat indices; `ImageData.data` carries bytes
(`Fin 256`) as a `Uint8ClampedArray` does.  These definitions are
executable. -/

/-- The input frame of `AprilTagDetector.detect`: RGBA bytes in a flat
buffer, four entries per pixel. -/
structure ImageData where
  width : ℕ
  height : ℕ
  data : ℕ → Fin 256

/-- Source `apriltag.js` `convertToGrayscale(imageData)` (lines 57–67):
`gray = Math.round(0.299 R + 0.587 G + 0.114 B)` for each pixel. -/
def convertToGrayscale (imageData : ImageData) : ℕ → ℤ :=
  fun i =>
    round ((0.299 : ℚ) * ((imageData.data (4 * i) : ℕ) : ℚ)
      + (0.587 : ℚ) * ((imageData.data (4 * i + 1) : ℕ) : ℚ)
      + (0.114 : ℚ) * ((imageData.data (4 * i + 2) : ℕ) : ℚ))

/-- Source `apriltag.js` `couldBeTagCenter` (lines 96–124): count
in-bounds pixels of the `[-15, 15] × [-15, 15]` window around `(x, y)`
that lie above the threshold and accept only when the white fraction is
strictly between `0.2` and `0.8`. -/
def couldBeTagCenter (grayData : ℕ → ℤ) (width height : ℕ) (x y : ℕ)
    (threshold : ℤ) : Bool :=
  let offsets := (Finset.Icc (-15 : ℤ) 15) ×ˢ (Finset.Icc (-15 : ℤ) 15)
  let inWindow := offsets.filter fun d =>
    0 ≤ (x : ℤ) + d.1 ∧ (x : ℤ) + d.1 < (width : ℤ) ∧
      0 ≤ (y : ℤ) + d.2 ∧ (y : ℤ) + d.2 < (height : ℤ)
  let totalPixels := inWindow.card
  let whitePixels := (inWindow.filter fun d =>
    threshold < grayData ((((y : ℤ) + d.2) * (width : ℤ) + ((x : ℤ) + d.1)).toNat)).card
  let whiteRatio := (whitePixels : ℚ) / (totalPixels : ℚ)
  if (0.2 : ℚ) < whiteRatio ∧ whiteRatio < (0.8 : ℚ) then true else false

/-- Bounding box accumulated by `findTagBoundaries`. -/
structure Boundaries where
  minX : ℕ
  maxX : ℕ
  minY : ℕ
  maxY : ℕ

/-- One iteration of the radius loop of `findTagBoundaries` (lines 132–162):
probe the four cardinal directions at the given radius and extend the box
wherever the probed intensity is below the threshold. -/
def boundaryUpdate (grayData : ℕ → ℤ) (width height : ℕ) (centerX centerY : ℕ)
    (threshold : ℤ) (b : Boundaries) (radius : ℕ) : Boundaries :=
  let b1 := if radius ≤ centerX ∧
      grayData (centerY * width + (centerX - radius)) < threshold then
    { b with minX := min b.minX (centerX - radius) } else b
  let b2 := if centerX + radius < width ∧
      grayData (centerY * width + (centerX + radius)) < threshold then
    { b1 with maxX := max b1.maxX (centerX + radius) } else b1
  let b3 := if radius ≤ centerY ∧
      grayData ((centerY - radius) * width + centerX) < threshold then
    { b2 with minY := min b2.minY (centerY - radius) } else b2
  if centerY + radius < height ∧
      grayData ((centerY + radius) * width + centerX) < threshold then
    { b3 with maxY := max b3.maxY (centerY + radius) } else b3

/-- Source `apriltag.js` `findTagBoundaries` (lines 126–173): fold the
boundary probe over radii `5, 10, …, 95` starting from the degenerate box
at the center, then keep the box only if both sides exceed 20 px and the
box is within 30% of square (`|w - h| < 0.3 w`). -/
def findTagBoundaries (grayData : ℕ → ℤ) (width height : ℕ)
    (centerX centerY : ℕ) (threshold : ℤ) : Option Boundaries :=
  let b := (List.range' 5 19 5).foldl
    (boundaryUpdate grayData width height centerX centerY threshold)
    ⟨centerX, centerX, centerY, centerY⟩
  let tagWidth := b.maxX - b.minX
  let tagHeight := b.maxY - b.minY
  if 20 < tagWidth ∧ 20 < tagHeight ∧
      |(tagWidth : ℚ) - (tagHeight : ℚ)| < (tagWidth : ℚ) * (0.3 : ℚ) then
    some b
  else none

/-- Integer corner quadruple in the fixed order top-left, top-right,
bottom-right, bottom-left. -/
structure CornersI where
  c0 : ℕ × ℕ
  c1 : ℕ × ℕ
  c2 : ℕ × ℕ
  c3 : ℕ × ℕ

/-- Source `apriltag.js` `calculateCorners(boundaries)` (lines 175–183). -/
def calculateCorners (boundaries : Boundaries) : CornersI :=
  ⟨(boundaries.minX, boundaries.minY), (boundaries.maxX, boundaries.minY),
   (boundaries.maxX, boundaries.maxY), (boundaries.minX, boundaries.maxY)⟩

/-- A tag candidate as pushed by `findTagCandidates` (lines 83–87). -/
structure Candidate where
  center : ℕ × ℕ
  boundaries : Boundaries
  corners : CornersI

/-- The strided scan lattice of `findTagCandidates`: coordinates
`30, 40, 50, …` strictly below `size - 30`, i.e. the loop
`for (v = 30; v < size - 30; v += 10)`.  The iteration count
`(size - 60 + 9) / 10` (truncated ℕ arithmetic) is the number of `k ≥ 0`
with `30 + 10 k < size - 30`. -/
def lattice (size : ℕ) : List ℕ := List.range' 30 ((size - 60 + 9) / 10) 10

/-- Source `apriltag.js` `findTagCandidates(grayData, width, height)`
(lines 69–94), with the fixed threshold 128. -/
def findTagCandidates (grayData : ℕ → ℤ) (width height : ℕ) : List Candidate :=
  (lattice height).flatMap fun y =>
    (lattice width).filterMap fun x =>
      if couldBeTagCenter grayData width height x y 128 then
        (findTagBoundaries grayData width height x y 128).map fun boundaries =>
          { center := (x, y), boundaries := boundaries,
            corners := calculateCorners boundaries }
      else none

noncomputable section

/-- Real-valued corner quadruple, as consumed by `estimatePose`. -/
structure Corners4 where
  c0 : ℝ × ℝ
  c1 : ℝ × ℝ
  c2 : ℝ × ℝ
  c3 : ℝ × ℝ

/-- Coercion of integer pixel corners to the real-valued corners used by
the pose estimator. -/
def castCorners (c : CornersI) : Corners4 :=
  ⟨((c.c0.1 : ℝ), (c.c0.2 : ℝ)), ((c.c1.1 : ℝ), (c.c1.2 : ℝ)),
   ((c.c2.1 : ℝ), (c.c2.2 : ℝ)), ((c.c3.1 : ℝ), (c.c3.2 : ℝ))⟩

/-- The apparent pixel size of `estimatePose` (lines 282–285): the
Euclidean length of the top edge vector `corners[1] - corners[0]`. -/
def apparentPixelSize (corners : Corners4) : ℝ :=
  Real.sqrt ((corners.c1.1 - corners.c0.1) ^ 2 + (corners.c1.2 - corners.c0.2) ^ 2)

/-- Source `apriltag.js` `estimatePose(corners, tagSize)` (lines 273–308):
pinhole distance from apparent size with assumed focal length 800 and
assumed image center `(320, 240)`; orientation is `(0, 0, atan2(dy, dx))`
of the top edge vector. -/
def estimatePose (corners : Corners4) (tagSize : ℝ) : Pose :=
  let centerX := (corners.c0.1 + corners.c1.1 + corners.c2.1 + corners.c3.1) / 4
  let centerY := (corners.c0.2 + corners.c1.2 + corners.c2.2 + corners.c3.2) / 4
  let pixelSize := apparentPixelSize corners
  let focalLength : ℝ := 800
  let distance := tagSize * focalLength / pixelSize
  let imgCenterX : ℝ := 320
  let imgCenterY : ℝ := 240
  let x := (centerX - imgCenterX) * distance / focalLength
  let y := (centerY - imgCenterY) * distance / focalLength
  let z := distance
  let dx := corners.c1.1 - corners.c0.1
  let dy := corners.c1.2 - corners.c0.2
  let angle := atan2 dy dx
  ⟨⟨x, y, z⟩, ⟨0, 0, angle⟩⟩

/-- A detection record as returned by `validateAndDecode` (lines 208–213). -/
structure Detection where
  id : ℕ
  corners : CornersI
  center : ℕ × ℕ
  pose : Pose

/-- Source `apriltag.js` `validateAndDecode(candidate, width, height)`
(lines 185–214): identity 0 for centers with `cx < 0.6 w` and `cy < 0.6 h`,
else identity 1 for centers with `cx > 0.4 w`, else rejection.
`tagSizeConfig` is the detector's configured physical tag size
`this.tagSize` consumed by the pose estimate. -/
def validateAndDecode (candidate : Candidate) (width height : ℕ)
    (tagSizeConfig : ℝ) : Option Detection :=
  let corners := candidate.corners
  let center := candidate.center
  if (center.1 : ℚ) < (width : ℚ) * (0.6 : ℚ) ∧
      (center.2 : ℚ) < (height : ℚ) * (0.6 : ℚ) then
    some ⟨0, corners, center, estimatePose (castCorners corners) tagSizeConfig⟩
  else if (width : ℚ) * (0.4 : ℚ) < (center.1 : ℚ) then
    some ⟨1, corners, center, estimatePose (castCorners corners) tagSizeConfig⟩
  else
    none

/-- Source `apriltag.js` `AprilTagDetector.detect(imageData)` (lines 34–55):
grayscale conversion, candidate search, then validation of each candidate. -/
def detect (tagSizeConfig : ℝ) (imageData : ImageData) : List Detection :=
  let grayData := convertToGrayscale imageData
  let candidates := findTagCandidates grayData imageData.width imageData.height
  candidates.filterMap fun candidate =>
    validateAndDecode candidate imageData.width imageData.height tagSizeConfig

end

/-- C9: for every input pixel with `R = G = B = v` the grayscale conversion
outputs exactly `v`; and in general each output sample equals
`round (0.299 R + 0.587 G + 0.114 B)` of the pixel's RGB channels. -/
theorem convertToGrayscale_spec :
    (∀ (imageData : ImageData) (i : ℕ) (v : Fin 256),
        imageData.data (4 * i) = v → imageData.data (4 * i + 1) = v →
          imageData.data (4 * i + 2) = v →
          convertToGrayscale imageData i = ((v : ℕ) : ℤ)) ∧
      ∀ (imageData : ImageData) (i : ℕ),
        convertToGrayscale imageData i
          = round ((0.299 : ℚ) * ((imageData.data (4 * i) : ℕ) : ℚ)
              + (0.587 : ℚ) * ((imageData.data (4 * i + 1) : ℕ) : ℚ)
              + (0.114 : ℚ) * ((imageData.data (4 * i + 2) : ℕ) : ℚ)) := by
  constructor
  · intro imageData i v h0 h1 h2
    simp only [convertToGrayscale, h0, h1, h2]
    rw [show (0.299 : ℚ) * ((v : ℕ) : ℚ) + (0.587 : ℚ) * ((v : ℕ) : ℚ)
        + (0.114 : ℚ) * ((v : ℕ) : ℚ) = ((v : ℕ) : ℚ) by ring]
    exact round_natCast (v : ℕ)
  · intro imageData i
    rfl

/-- Witness for C9: a constant gray frame with byte value 100 converts to
gray value 100. -/
theorem convertToGrayscale_spec_witness :
    convertToGrayscale ⟨2, 2, fun _ => (100 : Fin 256)⟩ 0 = 100 :=
  convertToGrayscale_spec.1 ⟨2, 2, fun _ => (100 : Fin 256)⟩ 0 (100 : Fin 256)
    rfl rfl rfl

/-- The white fraction of a constantly-valued window never lies strictly
between `0.2` and `0.8`: it is `1` (or `0` over an empty window) when the
constant exceeds the threshold, and `0` otherwise. -/
lemma couldBeTagCenter_uniform (v threshold : ℤ) (width height x y : ℕ) :
    couldBeTagCenter (fun _ => v) width height x y threshold = false := by
  simp only [couldBeTagCenter]
  split
  case isTrue h =>
    exfalso
    obtain ⟨h1, h2⟩ := h
    by_cases hv : threshold < v
    · rw [Finset.filter_true_of_mem (fun d _ => hv)] at h1 h2
      rcases Nat.eq_zero_or_pos (((Finset.Icc (-15 : ℤ) 15) ×ˢ
          (Finset.Icc (-15 : ℤ) 15)).filter fun d =>
            0 ≤ (x : ℤ) + d.1 ∧ (x : ℤ) + d.1 < (width : ℤ) ∧
              0 ≤ (y : ℤ) + d.2 ∧ (y : ℤ) + d.2 < (height : ℤ)).card with h0 | hpos
      · rw [h0] at h1
        norm_num at h1
      · rw [div_self (Nat.cast_ne_zero.mpr hpos.ne')] at h2
        norm_num at h2
    · rw [Finset.filter_false_of_mem (fun d _ => hv)] at h1
      simp only [Finset.card_empty, Nat.cast_zero, zero_div] at h1
      norm_num at h1
  case isFalse => rfl

/-- C8: on a uniform intensity frame no lattice point passes the
local-contrast test — the bright-pixel fraction is never strictly between
`0.2` and `0.8` — and consequently `findTagCandidates` returns the empty
candidate list, for any frame dimensions. -/
theorem findTagCandidates_uniform_empty (v : ℤ) (width height : ℕ) :
    (∀ (x y : ℕ) (threshold : ℤ),
        couldBeTagCenter (fun _ => v) width height x y threshold = false) ∧
      findTagCandidates (fun _ => v) width height = [] := by
  refine ⟨fun x y threshold => couldBeTagCenter_uniform v threshold width height x y, ?_⟩
  simp only [findTagCandidates]
  rw [List.flatMap_eq_nil_iff]
  intro y _
  rw [List.filterMap_eq_nil_iff]
  intro x _
  rw [couldBeTagCenter_uniform v 128 width height x y]
  simp

/-- C7: in a 640×480 frame a candidate centered at `(200, 200)` receives
identity 0 and a candidate centered at `(450, 280)` receives identity 1;
in general a center in the left band (`cx < 0.6 w` and `cy < 0.6 h`) gets
identity 0, otherwise a center in the right band (`cx > 0.4 w`) gets
identity 1, and a center in neither band is rejected. -/
theorem validateAndDecode_bands :
    (∀ (candidate : Candidate) (tagSizeConfig : ℝ),
        candidate.center = (200, 200) →
          Option.map Detection.id
              (validateAndDecode candidate 640 480 tagSizeConfig) = some 0) ∧
      (∀ (candidate : Candidate) (tagSizeConfig : ℝ),
        candidate.center = (450, 280) →
          Option.map Detection.id
              (validateAndDecode candidate 640 480 tagSizeConfig) = some 1) ∧
      ∀ (candidate : Candidate) (width height : ℕ) (tagSizeConfig : ℝ),
        (((candidate.center.1 : ℚ) < (width : ℚ) * (0.6 : ℚ) ∧
              (candidate.center.2 : ℚ) < (height : ℚ) * (0.6 : ℚ)) →
            Option.map Detection.id
                (validateAndDecode candidate width height tagSizeConfig) = some 0) ∧
          (¬((candidate.center.1 : ℚ) < (width : ℚ) * (0.6 : ℚ) ∧
                (candidate.center.2 : ℚ) < (height : ℚ) * (0.6 : ℚ)) →
              (width : ℚ) * (0.4 : ℚ) < (candidate.center.1 : ℚ) →
            Option.map Detection.id
                (validateAndDecode candidate width height tagSizeConfig) = some 1) ∧
          (¬((candidate.center.1 : ℚ) < (width : ℚ) * (0.6 : ℚ) ∧
                (candidate.center.2 : ℚ) < (height : ℚ) * (0.6 : ℚ)) →
              ¬((width : ℚ) * (0.4 : ℚ) < (candidate.center.1 : ℚ)) →
            validateAndDecode candidate width height tagSizeConfig = none) := by
  have hgen : ∀ (candidate : Candidate) (width height : ℕ) (tagSizeConfig : ℝ),
      (((candidate.center.1 : ℚ) < (width : ℚ) * (0.6 : ℚ) ∧
            (candidate.center.2 : ℚ) < (height : ℚ) * (0.6 : ℚ)) →
          Option.map Detection.id
              (validateAndDecode candidate width height tagSizeConfig) = some 0) ∧
        (¬((candidate.center.1 : ℚ) < (width : ℚ) * (0.6 : ℚ) ∧
              (candidate.center.2 : ℚ) < (height : ℚ) * (0.6 : ℚ)) →
            (width : ℚ) * (0.4 : ℚ) < (candidate.center.1 : ℚ) →
          Option.map Detection.id
              (validateAndDecode candidate width height tagSizeConfig) = some 1) ∧
        (¬((candidate.center.1 : ℚ) < (width : ℚ) * (0.6 : ℚ) ∧
              (candidate.center.2 : ℚ) < (height : ℚ) * (0.6 : ℚ)) →
            ¬((width : ℚ) * (0.4 : ℚ) < (candidate.center.1 : ℚ)) →
          validateAndDecode candidate width height tagSizeConfig = none) := by
    intro candidate width height tagSizeConfig
    refine ⟨fun hband => ?_, fun hnot hband => ?_, fun hnot hnot2 => ?_⟩
    · rw [validateAndDecode, if_pos hband]
      rfl
    · rw [validateAndDecode, if_neg hnot, if_pos hband]
      rfl
    · rw [validateAndDecode, if_neg hnot, if_neg hnot2]
  refine ⟨?_, ?_, hgen⟩
  · intro candidate tagSizeConfig hc
    exact (hgen candidate 640 480 tagSizeConfig).1 (by rw [hc]; norm_num)
  · intro candidate tagSizeConfig hc
    exact (hgen candidate 640 480 tagSizeConfig).2.1
      (by rw [hc]; norm_num) (by rw [hc]; norm_num)

/-- Witness for C7: a concrete candidate centered at `(200, 200)` in a
640×480 frame receives identity 0. -/
theorem validateAndDecode_bands_witness :
    Option.map Detection.id
        (validateAndDecode
          ⟨(200, 200), ⟨0, 0, 0, 0⟩, ⟨(0, 0), (0, 0), (0, 0), (0, 0)⟩⟩
          640 480 1) = some 0 :=
  validateAndDecode_bands.1
    ⟨(200, 200), ⟨0, 0, 0, 0⟩, ⟨(0, 0), (0, 0), (0, 0), (0, 0)⟩⟩ 1 rfl

/-- C6: for corners with `corners[1] ≠ corners[0]` and physical tag size
`S > 0`, `estimatePose` reports z-translation exactly `S * 800 / P`, where
`P` is the Euclidean length of the edge vector `corners[1] - corners[0]`
and 800 is the assumed focal length; and for a second corner set whose
apparent pixel size is doubled, the reported distance is halved. -/
theorem estimatePose_distance (corners corners2 : Corners4) (tagSize : ℝ)
    (hc : corners.c1 ≠ corners.c0) (hS : 0 < tagSize)
    (hdouble : apparentPixelSize corners2 = 2 * apparentPixelSize corners) :
    (estimatePose corners tagSize).translation.z
        = tagSize * 800 / apparentPixelSize corners ∧
      (estimatePose corners2 tagSize).translation.z
        = (estimatePose corners tagSize).translation.z / 2 := by
  refine ⟨rfl, ?_⟩
  show tagSize * 800 / apparentPixelSize corners2
      = tagSize * 800 / apparentPixelSize corners / 2
  rw [hdouble, div_div, mul_comm (apparentPixelSize corners) 2]

/-- Witness for C6: the top edge from `(0,0)` to `(3,4)` has apparent size
5, giving distance `800 / 5 = 160` for a 1 m tag, and doubling the edge to
`(6,8)` (apparent size 10) halves the distance. -/
theorem estimatePose_distance_witness :
    (estimatePose ⟨(0, 0), (3, 4), (0, 0), (0, 0)⟩ 1).translation.z
        = 1 * 800 / apparentPixelSize ⟨(0, 0), (3, 4), (0, 0), (0, 0)⟩ ∧
      (estimatePose ⟨(0, 0), (6, 8), (0, 0), (0, 0)⟩ 1).translation.z
        = (estimatePose ⟨(0, 0), (3, 4), (0, 0), (0, 0)⟩ 1).translation.z / 2 := by
  refine estimatePose_distance ⟨(0, 0), (3, 4), (0, 0), (0, 0)⟩
    ⟨(0, 0), (6, 8), (0, 0), (0, 0)⟩ 1 ?_ one_pos ?_
  · intro h
    have := congrArg Prod.fst h
    norm_num at this
  · show Real.sqrt (((6 : ℝ) - 0) ^ 2 + ((8 : ℝ) - 0) ^ 2)
        = 2 * Real.sqrt (((3 : ℝ) - 0) ^ 2 + ((4 : ℝ) - 0) ^ 2)
    rw [show ((6 : ℝ) - 0) ^ 2 + ((8 : ℝ) - 0) ^ 2 = (10 : ℝ) ^ 2 by norm_num,
      show ((3 : ℝ) - 0) ^ 2 + ((4 : ℝ) - 0) ^ 2 = (5 : ℝ) ^ 2 by norm_num,
      Real.sqrt_sq (by norm_num : (0 : ℝ) ≤ 10),
      Real.sqrt_sq (by norm_num : (0 : ℝ) ≤ 5)]
    norm_num

/-- A boundary box accepted by `findTagBoundaries` has width strictly
greater than 20 pixels. -/
lemma findTagBoundaries_some_width {grayData : ℕ → ℤ} {width height : ℕ}
    {centerX centerY : ℕ} {threshold : ℤ} {b : Boundaries}
    (h : findTagBoundaries grayData width height centerX centerY threshold = some b) :
    20 < b.maxX - b.minX := by
  simp only [findTagBoundaries] at h
  split at h
  case isTrue hcond =>
    obtain rfl := Option.some.inj h
    exact hcond.1
  case isFalse => exact absurd h (by simp)

/-- Every candidate emitted by `findTagCandidates` has corners derived from
an accepted boundary box. -/
lemma mem_findTagCandidates {grayData : ℕ → ℤ} {width height : ℕ}
    {c : Candidate} (h : c ∈ findTagCandidates grayData width height) :
    ∃ b : Boundaries, 20 < b.maxX - b.minX ∧ c.corners = calculateCorners b := by
  simp only [findTagCandidates] at h
  rw [List.mem_flatMap] at h
  obtain ⟨y, _, hy⟩ := h
  rw [List.mem_filterMap] at hy
  obtain ⟨x, _, hx⟩ := hy
  split at hx
  case isTrue =>
    rw [Option.map_eq_some'] at hx
    obtain ⟨b, hb, hmk⟩ := hx
    exact ⟨b, findTagBoundaries_some_width hb, by rw [← hmk]⟩
  case isFalse => exact absurd hx (by simp)

/-- Every detection produced by the camera pipeline carries the zero
orientation: the corners are the corners of an axis-aligned box of width
greater than 20, so the top-edge vector has `dy = 0`, `dx > 0`, and the yaw
`atan2 0 dx` vanishes. -/
lemma detect_rotation_zero {tagSizeConfig : ℝ} {imageData : ImageData}
    {d : Detection} (h : d ∈ detect tagSizeConfig imageData) :
    d.pose.rotation = ⟨0, 0, 0⟩ := by
  simp only [detect] at h
  rw [List.mem_filterMap] at h
  obtain ⟨c, hc, hvd⟩ := h
  obtain ⟨b, hb, hcorners⟩ := mem_findTagCandidates hc
  have hpose : d.pose = estimatePose (castCorners c.corners) tagSizeConfig := by
    simp only [validateAndDecode] at hvd
    split at hvd
    case isTrue =>
      obtain rfl := Option.some.inj hvd
      rfl
    case isFalse =>
      split at hvd
      case isTrue =>
        obtain rfl := Option.some.inj hvd
        rfl
      case isFalse => exact absurd hvd (by simp)
  have hdx : (0 : ℝ) ≤ (b.maxX : ℝ) - (b.minX : ℝ) := by
    have hle : b.minX ≤ b.maxX := by
      have := lt_tsub_iff_right.mp hb
      omega
    have hcast : (b.minX : ℝ) ≤ (b.maxX : ℝ) := Nat.cast_le.mpr hle
    linarith
  rw [hpose, hcorners]
  show Vec3.mk 0 0 (atan2 ((b.minY : ℝ) - (b.minY : ℝ)) ((b.maxX : ℝ) - (b.minX : ℝ)))
      = ⟨0, 0, 0⟩
  rw [sub_self, atan2_zero_of_nonneg hdx]

/-- C10: for every configured tag size and every input image, every
detection returned by `AprilTagDetector.detect` has rotation exactly
`(0, 0, 0)` — the camera pipeline can never report a nonzero orientation. -/
theorem detect_rotation_always_zero (tagSizeConfig : ℝ) (imageData : ImageData) :
    (detect tagSizeConfig imageData).map (fun d => d.pose.rotation)
      = List.replicate (detect tagSizeConfig imageData).length ⟨0, 0, 0⟩ := by
  have hall : ∀ r ∈ (detect tagSizeConfig imageData).map (fun d => d.pose.rotation),
      r = (⟨0, 0, 0⟩ : Vec3) := by
    intro r hr
    rw [List.mem_map] at hr
    obtain ⟨d, hd, rfl⟩ := hr
    exact detect_rotation_zero hd
  rw [show List.replicate (detect tagSizeConfig imageData).length (⟨0, 0, 0⟩ : Vec3)
      = List.replicate
          ((detect tagSizeConfig imageData).map (fun d => d.pose.rotation)).length
          (⟨0, 0, 0⟩ : Vec3) by rw [List.length_map]]
  exact List.eq_replicate_of_mem hall

end AprilTagWeb
